import Mathlib

/-!
Shallow embedding of the action combinator library in src/missions/action.rs
of the SW9S autonomous underwater vehicle software.

Modelling conventions:
- An executable action (Rust trait ActionExec with output T) is modelled as a
  state machine: a function from an internal state to a produced value and a
  successor state.  The Rust method takes and mutates the action by reference;
  here the mutation is explicit state passing.
- A modifiable action (Rust trait ActionMod with input I) is modelled as a
  function from the input and the current state to the updated state.
- A combinator over two children threads the pair of child states.
- The select-based combinators (RaceAction, ActionSelect) depend on which
  child finishes first, so their children are modelled as cooperative
  coroutines: a poll function that either yields a new state (pending) or a
  final value (ready).  The select loop polls both children in turn, with
  fuel standing in for the unbounded scheduler loop.
- Fallible children (anyhow Result output) are modelled with Except; a child
  executed repeatedly in a loop is modelled as the stream of results of its
  successive executions, indexed from 0.
-/

/-- State machine model of the Rust trait ActionExec with output type T:
one call to execute takes the internal state to a value and a new state. -/
structure ActionExec (σ T : Type) where
  execute : σ → T × σ

/-- Model of the Rust trait ActionMod with input type I: modify updates the
internal state from a borrowed input. -/
structure ActionMod (σ I : Type) where
  modify : I → σ → σ

/-- An action that always produces a fixed value and leaves state unchanged. -/
def constAction {T : Type} (v : T) : ActionExec Unit T :=
  ⟨fun s => (v, s)⟩

/-- The Rust Result method is_err, for the Except model of anyhow Result. -/
def Except.isErr {E U : Type} : Except E U → Bool
  | Except.ok _ => false
  | Except.error _ => true

namespace ActionChain

/-- ActionChain execute (action.rs lines 264-271):
second.modify is called with the value produced by first.execute, then
second.execute runs; the chain returns the second value.  State of first is
the state after its execution, state of second is the state after modify
then execute. -/
def execute {σV σW T U : Type} (first : ActionExec σV T)
    (secondMod : ActionMod σW T) (second : ActionExec σW U)
    (s : σV × σW) : U × (σV × σW) :=
  let r1 := first.execute s.1
  let sW := secondMod.modify r1.1 s.2
  let r2 := second.execute sW
  (r2.1, (r1.2, r2.2))

/-- ActionChain modify (action.rs lines 273-279): forwards the outer input
to first only. -/
def modify {σV σW I : Type} (firstMod : ActionMod σV I)
    (i : I) (s : σV × σW) : σV × σW :=
  (firstMod.modify i s.1, s.2)

end ActionChain

namespace ActionDataConditional

/-- ActionDataConditional execute (action.rs lines 151-158): runs the
condition; on Some output it calls modify on the true branch with that
output and executes the true branch; on None it executes the false branch.
State is (condition, true branch, false branch). -/
def execute {σC σT σF T U : Type} (condition : ActionExec σC (Option T))
    (trueMod : ActionMod σT T) (trueBranch : ActionExec σT U)
    (falseBranch : ActionExec σF U)
    (s : σC × σT × σF) : U × (σC × σT × σF) :=
  let rc := condition.execute s.1
  match rc.1 with
  | some output =>
    let sT := trueMod.modify output s.2.1
    let rt := trueBranch.execute sT
    (rt.1, (rc.2, rt.2, s.2.2))
  | none =>
    let rf := falseBranch.execute s.2.2
    (rf.1, (rc.2, s.2.1, rf.2))

/-- ActionDataConditional modify (action.rs lines 161-173): forwards the
outer input to the condition and the false branch only. -/
def modify {σC σT σF I : Type} (conditionMod : ActionMod σC I)
    (falseMod : ActionMod σF I) (i : I) (s : σC × σT × σF) : σC × σT × σF :=
  (conditionMod.modify i s.1, s.2.1, falseMod.modify i s.2.2)

end ActionDataConditional

/-- One cooperative poll of a child future: either still pending with a new
internal state, or ready with a final value. -/
inductive Poll (σ T : Type) : Type
  | pending (s : σ) : Poll σ T
  | ready (v : T) : Poll σ T

/-- Coroutine model of a child action driven by a cooperative scheduler:
each poll either suspends (pending, with updated state) or completes. -/
structure Coro (σ T : Type) where
  poll : σ → Poll σ T

namespace RaceAction

/-- RaceAction execute (action.rs lines 198-205): tokio select over the two
children; the scheduler loop polls first then second each round until one is
ready, returning that value.  Fuel bounds the scheduler loop; none models a
select in which neither child ever completes within the fuel. -/
def execute {σV σW X : Type} (first : Coro σV X) (second : Coro σW X) :
    Nat → σV → σW → Option X
  | 0, _, _ => none
  | fuel + 1, sV, sW =>
    match first.poll sV with
    | Poll.ready v => some v
    | Poll.pending sV1 =>
      match second.poll sW with
      | Poll.ready v => some v
      | Poll.pending sW1 => execute first second fuel sV1 sW1

end RaceAction

namespace ActionSelect

/-- ActionSelect execute (action.rs lines 587-591): tokio select over the two
children, exactly as in RaceAction; both children produce the same output
type and the first ready value is returned unwrapped. -/
def execute {σV σW X : Type} (first : Coro σV X) (second : Coro σW X) :
    Nat → σV → σW → Option X
  | 0, _, _ => none
  | fuel + 1, sV, sW =>
    match first.poll sV with
    | Poll.ready v => some v
    | Poll.pending sV1 =>
      match second.poll sW with
      | Poll.ready v => some v
      | Poll.pending sW1 => execute first second fuel sV1 sW1

/-- ActionSelect modify (action.rs lines 593-600): forwards the input to both
children. -/
def modify {σV σW I : Type} (firstMod : ActionMod σV I)
    (secondMod : ActionMod σW I) (i : I) (s : σV × σW) : σV × σW :=
  (firstMod.modify i s.1, secondMod.modify i s.2)

end ActionSelect

/-- A child future that completes with value v after as many polls as its
Nat state counts down, used to realise the phrase first to finish. -/
def timerCoro {X : Type} (v : X) : Coro Nat X :=
  ⟨fun s =>
    match s with
    | 0 => Poll.ready v
    | n + 1 => Poll.pending n⟩

namespace DualAction

/-- DualAction execute (action.rs lines 230-234): tokio join of the two
children, both with the same output type V; completes with both results as a
pair and with both child states advanced by their execution. -/
def execute {σT σU V : Type} (first : ActionExec σT V)
    (second : ActionExec σU V) (s : σT × σU) : (V × V) × (σT × σU) :=
  let r1 := first.execute s.1
  let r2 := second.execute s.2
  ((r1.1, r2.1), (r1.2, r2.2))

/-- DualAction modify (action.rs lines 236-243): forwards the same input to
both children. -/
def modify {σT σU I : Type} (firstMod : ActionMod σT I)
    (secondMod : ActionMod σU I) (i : I) (s : σT × σU) : σT × σU :=
  (firstMod.modify i s.1, secondMod.modify i s.2)

end DualAction

namespace ActionConcurrent

/-- ActionConcurrent execute (action.rs lines 372-378): tokio join of the two
children; completes with both results as a pair and with both child states
advanced by their execution. -/
def execute {σV σW Y X : Type} (first : ActionExec σV Y)
    (second : ActionExec σW X) (s : σV × σW) : (Y × X) × (σV × σW) :=
  let r1 := first.execute s.1
  let r2 := second.execute s.2
  ((r1.1, r2.1), (r1.2, r2.2))

/-- ActionConcurrent modify (action.rs lines 380-387): forwards the same
input to both children. -/
def modify {σV σW I : Type} (firstMod : ActionMod σV I)
    (secondMod : ActionMod σW I) (i : I) (s : σV × σW) : σV × σW :=
  (firstMod.modify i s.1, secondMod.modify i s.2)

end ActionConcurrent

namespace ActionConcurrentSplit

/-- ActionConcurrentSplit execute (action.rs lines 403-409): identical to the
ActionConcurrent execute implementation. -/
def execute {σV σW Y X : Type} (first : ActionExec σV Y)
    (second : ActionExec σW X) (s : σV × σW) : (Y × X) × (σV × σW) :=
  let r1 := first.execute s.1
  let r2 := second.execute s.2
  ((r1.1, r2.1), (r1.2, r2.2))

/-- ActionConcurrentSplit modify (action.rs lines 411-422): takes a pair of
inputs and routes the first component to the first child and the second
component to the second child. -/
def modify {σV σW I1 I2 : Type} (firstMod : ActionMod σV I1)
    (secondMod : ActionMod σW I2) (i : I1 × I2) (s : σV × σW) : σV × σW :=
  (firstMod.modify i.1 s.1, secondMod.modify i.2 s.2)

end ActionConcurrentSplit

namespace ActionUntil

/-- The retry loop of ActionUntil execute (action.rs lines 443-448).  The
fallible child executed repeatedly is modelled as the stream f of the
results of its successive executions, indexed from 0.  In the Rust loop the
counter count starts at 1 after the first execution and the loop runs while
the result is an error and count is less than limit; here remaining is the
difference limit minus count, so the loop body runs exactly while remaining
is positive and the result is an error.  Returns the final result together
with the final value of count, which equals the number of executions
performed. -/
def go {E U : Type} (f : Nat → Except E U) :
    Nat → Nat → Except E U → Except E U × Nat
  | 0, count, result => (result, count)
  | remaining + 1, count, result =>
    if result.isErr then go f remaining (count + 1) (f count)
    else (result, count)

/-- ActionUntil execute (action.rs lines 441-451): one unconditional first
execution, then the bounded retry loop.  The pair holds the returned result
and the number of executions performed. -/
def execute {E U : Type} (f : Nat → Except E U) (limit : Nat) :
    Except E U × Nat :=
  go f (limit - 1) 1 (f 0)

end ActionUntil

namespace ActionWhile

/-- The loop of ActionWhile execute (action.rs lines 474-482): on each Ok
the produced value replaces the running result, on the first error the
running result is returned.  The child is modelled as the stream f of its
successive results, i is the index of the next execution, and fuel bounds
the loop (the theorems only use enough fuel to reach the first error, where
the source loop stops by itself). -/
def go {E U : Type} (f : Nat → Except E U) : Nat → Nat → U → U
  | 0, _, result => result
  | fuel + 1, i, result =>
    match f i with
    | Except.ok v => go f fuel (i + 1) v
    | Except.error _ => result

/-- ActionWhile execute (action.rs lines 472-483): the running result starts
at the default value of the output type. -/
def execute {E U : Type} [Inhabited U] (f : Nat → Except E U) (fuel : Nat) :
    U :=
  go f fuel 0 default

end ActionWhile

namespace FirstValid

/-- FirstValid execute for a child producing a pair of Results
(action.rs lines 547-558): returns the first member if it is Ok, else the
second member. -/
def executeResult {σ E U : Type}
    (action : ActionExec σ (Except E U × Except E U)) (s : σ) :
    Except E U × σ :=
  let r := action.execute s
  (if r.1.1.isOk then r.1.1 else r.1.2, r.2)

/-- FirstValid execute for a child producing a pair of Options
(action.rs lines 560-571): returns the first member if it is Some, else the
second member. -/
def executeOption {σ U : Type}
    (action : ActionExec σ (Option U × Option U)) (s : σ) :
    Option U × σ :=
  let r := action.execute s
  (if r.1.1.isSome then r.1.1 else r.1.2, r.2)

/-- FirstValid modify (action.rs lines 541-545): forwards the input to the
wrapped child. -/
def modify {σ I : Type} (actionMod : ActionMod σ I) (i : I) (s : σ) : σ :=
  actionMod.modify i s

end FirstValid

/-- Claim C1: ActionChain execute first runs the first child to completion,
then calls modify on the second child with exactly the value the first child
produced, then executes the second child and returns its result; and
ActionChain modify forwards an outer input only to the first child, leaving
the state of the second child untouched.  The last conjunct observes the
dataflow: with a second child whose modify stores the received value and
whose execute returns the stored value, the chain returns exactly the value
the first child produced. -/
theorem claim_C1 (σV σW T U I : Type) (first : ActionExec σV T)
    (firstMod : ActionMod σV I) (secondMod : ActionMod σW T)
    (second : ActionExec σW U) (s : σV × σW) (i : I) (sW0 : T) :
    ActionChain.execute first secondMod second s =
      ((second.execute (secondMod.modify (first.execute s.1).1 s.2)).1,
        ((first.execute s.1).2,
          (second.execute (secondMod.modify (first.execute s.1).1 s.2)).2))
    ∧ ActionChain.modify firstMod i s = (firstMod.modify i s.1, s.2)
    ∧ (ActionChain.modify firstMod i s).2 = s.2
    ∧ (ActionChain.execute first ⟨fun v _ => v⟩ ⟨fun st => (st, st)⟩
        (s.1, sW0)).1 = (first.execute s.1).1 :=
  ⟨rfl, rfl, rfl, rfl⟩

/-- Claim C7: ActionDataConditional modify applies the outer input to the
condition and the false branch only, leaving the true branch state
unchanged; execute, when the condition yields some v, calls modify on the
true branch with v before executing it (leaving the false branch state
unchanged), and when the condition yields none executes the false branch
(leaving the true branch state unchanged). -/
theorem claim_C7 (σC σT σF T U I : Type)
    (condition : ActionExec σC (Option T)) (conditionMod : ActionMod σC I)
    (trueMod : ActionMod σT T) (trueBranch : ActionExec σT U)
    (falseBranch : ActionExec σF U) (falseMod : ActionMod σF I)
    (i : I) (s : σC × σT × σF) :
    ActionDataConditional.modify conditionMod falseMod i s =
      (conditionMod.modify i s.1, s.2.1, falseMod.modify i s.2.2)
    ∧ (ActionDataConditional.modify conditionMod falseMod i s).2.1
        = s.2.1
    ∧ (∀ v, (condition.execute s.1).1 = some v →
        ActionDataConditional.execute condition trueMod trueBranch
            falseBranch s =
          ((trueBranch.execute (trueMod.modify v s.2.1)).1,
            ((condition.execute s.1).2,
              (trueBranch.execute (trueMod.modify v s.2.1)).2, s.2.2)))
    ∧ ((condition.execute s.1).1 = none →
        ActionDataConditional.execute condition trueMod trueBranch
            falseBranch s =
          ((falseBranch.execute s.2.2).1,
            ((condition.execute s.1).2, s.2.1,
              (falseBranch.execute s.2.2).2))) := by
  refine ⟨rfl, rfl, fun v hv => ?_, fun hn => ?_⟩
  · simp [ActionDataConditional.execute, hv]
  · simp [ActionDataConditional.execute, hn]

/-- Witness for claim C7 at a concrete conditional: the condition yields
some 5, the true branch echoes the value it was configured with, so the
conditional returns 5 and stores 5 into the true branch state, while the
false branch state is untouched. -/
theorem claim_C7_witness :
    ActionDataConditional.execute (constAction (some 5)) ⟨fun v _ => v⟩
        ⟨fun st => (st, st)⟩ (constAction 0) (((), 9, ())) =
      (5, ((), 5, ())) := by
  have h := (claim_C7 Unit Nat Unit Nat Nat Nat (constAction (some 5))
    ⟨fun _ s => s⟩ ⟨fun v _ => v⟩ ⟨fun st => (st, st)⟩ (constAction 0)
    ⟨fun _ s => s⟩ 3 (((), 9, ()))).2.2.1 5 rfl
  simpa using h

/-- Claim C8: ActionConcurrent and ActionConcurrentSplit have identical
execute behavior (both children run, the result is the pair of both
produced values and both final states) and differ only in modify:
ActionConcurrent forwards one input to both children, ActionConcurrentSplit
routes the first component of a pair of inputs to the first child and the
second component to the second child. -/
theorem claim_C8 (σV σW Y X I I1 I2 : Type) (first : ActionExec σV Y)
    (second : ActionExec σW X) (firstMod : ActionMod σV I)
    (secondMod : ActionMod σW I) (firstModS : ActionMod σV I1)
    (secondModS : ActionMod σW I2) (s : σV × σW) (i : I) (ip : I1 × I2) :
    ActionConcurrent.execute first second s =
      ActionConcurrentSplit.execute first second s
    ∧ (ActionConcurrent.execute first second s).1 =
        ((first.execute s.1).1, (second.execute s.2).1)
    ∧ (ActionConcurrent.execute first second s).2 =
        ((first.execute s.1).2, (second.execute s.2).2)
    ∧ ActionConcurrent.modify firstMod secondMod i s =
        (firstMod.modify i s.1, secondMod.modify i s.2)
    ∧ ActionConcurrentSplit.modify firstModS secondModS ip s =
        (firstModS.modify ip.1 s.1, secondModS.modify ip.2 s.2) :=
  ⟨rfl, rfl, rfl, rfl, rfl⟩

/-- Claim C10: DualAction requires both children to share one output type,
completes with both results as a pair once both children have executed, and
its modify forwards the same input to both children. -/
theorem claim_C10 (σT σU V I : Type) (first : ActionExec σT V)
    (second : ActionExec σU V) (firstMod : ActionMod σT I)
    (secondMod : ActionMod σU I) (s : σT × σU) (i : I) :
    DualAction.execute first second s =
      (((first.execute s.1).1, (second.execute s.2).1),
        ((first.execute s.1).2, (second.execute s.2).2))
    ∧ DualAction.modify firstMod secondMod i s =
        (firstMod.modify i s.1, secondMod.modify i s.2) :=
  ⟨rfl, rfl⟩

/-- Claim C6: FirstValid returns the first member of the produced pair when
it signals success or presence, and otherwise returns the second member; in
particular (error, ok x) yields ok x and (ok y, ok x) yields ok y. -/
theorem claim_C6 (σ E U : Type)
    (action : ActionExec σ (Except E U × Except E U))
    (actionO : ActionExec σ (Option U × Option U)) (s : σ) :
    ((action.execute s).1.1.isOk = true →
      (FirstValid.executeResult action s).1 = (action.execute s).1.1)
    ∧ ((action.execute s).1.1.isOk = false →
      (FirstValid.executeResult action s).1 = (action.execute s).1.2)
    ∧ ((actionO.execute s).1.1.isSome = true →
      (FirstValid.executeOption actionO s).1 = (actionO.execute s).1.1)
    ∧ ((actionO.execute s).1.1.isSome = false →
      (FirstValid.executeOption actionO s).1 = (actionO.execute s).1.2)
    ∧ (∀ (e : E) (x y : U),
        (FirstValid.executeResult (constAction
          ((Except.error e, Except.ok x) :
            Except E U × Except E U)) ()).1 = Except.ok x
        ∧ (FirstValid.executeResult (constAction
          ((Except.ok y, Except.ok x) :
            Except E U × Except E U)) ()).1 = Except.ok y) := by
  refine ⟨fun h => ?_, fun h => ?_, fun h => ?_, fun h => ?_,
    fun e x y => ⟨?_, ?_⟩⟩
  · simp [FirstValid.executeResult, h]
  · simp [FirstValid.executeResult, h]
  · simp [FirstValid.executeOption, h]
  · simp [FirstValid.executeOption, h]
  · simp [FirstValid.executeResult, constAction, Except.isOk, Except.toBool]
  · simp [FirstValid.executeResult, constAction, Except.isOk, Except.toBool]

/-- Witness for claim C6 at concrete pairs: a failing first member falls
back to the second, and a present first member is kept. -/
theorem claim_C6_witness :
    (FirstValid.executeResult (constAction
      ((Except.error "no", Except.ok 4) :
        Except String Nat × Except String Nat)) ()).1 = Except.ok 4
    ∧ (FirstValid.executeOption (constAction
      ((none, some 2) : Option Nat × Option Nat)) ()).1 = some 2 := by
  have h := claim_C6 Unit String Nat
    (constAction (Except.error "no", Except.ok 4))
    (constAction (none, some 2)) ()
  exact ⟨h.2.1 rfl, h.2.2.2.1 rfl⟩

/-- Loop invariant of the ActionUntil retry loop: the loop always returns
the result of its last child execution, every execution before the last one
returned an error, and the final attempt counter lies between the entry
counter and the entry counter plus the remaining budget. -/
theorem ActionUntil.go_spec {E U : Type} (f : Nat → Except E U) :
    ∀ (remaining count : Nat) (result : Except E U),
      1 ≤ count → result = f (count - 1) →
      (∀ j, j + 1 < count → (f j).isErr = true) →
      (ActionUntil.go f remaining count result).1 =
          f ((ActionUntil.go f remaining count result).2 - 1)
      ∧ (∀ j, j + 1 < (ActionUntil.go f remaining count result).2 →
          (f j).isErr = true)
      ∧ count ≤ (ActionUntil.go f remaining count result).2
      ∧ (ActionUntil.go f remaining count result).2 ≤ count + remaining := by
  intro remaining
  induction remaining with
  | zero =>
    intro count result h1 hres hinv
    exact ⟨hres, hinv, Nat.le_refl _, Nat.le_refl _⟩
  | succ n ih =>
    intro count result h1 hres hinv
    by_cases herr : result.isErr = true
    · have hstep : ActionUntil.go f (n + 1) count result =
          ActionUntil.go f n (count + 1) (f count) := by
        simp [ActionUntil.go, herr]
      have hinv2 : ∀ j, j + 1 < count + 1 → (f j).isErr = true := by
        intro j hj
        rcases Nat.lt_or_ge (j + 1) count with hlt | hge
        · exact hinv j hlt
        · have hj2 : j + 1 = count := Nat.le_antisymm (Nat.lt_succ_iff.mp hj) hge
          have : j = count - 1 := by omega
          rw [this, ← hres]
          exact herr
      have h := ih (count + 1) (f count) (by omega) (by simp) hinv2
      rw [hstep]
      exact ⟨h.1, h.2.1, by omega, by omega⟩
    · have hstep : ActionUntil.go f (n + 1) count result = (result, count) := by
        simp [ActionUntil.go, herr]
      rw [hstep]
      exact ⟨hres, hinv, Nat.le_refl _, by omega⟩

/-- Claim C2: ActionUntil execute returns the result of the last child
execution it performed, all executions before the last one failed (so the
loop stops as soon as one attempt succeeds), and for a child failing its
first two attempts: under limit 3 a success on the third attempt is
returned after exactly 3 attempts, and under limit 2 the failure of the
second attempt is returned after exactly 2 attempts. -/
theorem claim_C2 (E U : Type) (f : Nat → Except E U) (limit : Nat) :
    (ActionUntil.execute f limit).1 =
        f ((ActionUntil.execute f limit).2 - 1)
    ∧ (∀ j, j + 1 < (ActionUntil.execute f limit).2 → (f j).isErr = true)
    ∧ ((f 0).isErr = true → (f 1).isErr = true →
        (∀ v, f 2 = Except.ok v →
          ActionUntil.execute f 3 = (Except.ok v, 3))
        ∧ ActionUntil.execute f 2 = (f 1, 2)) := by
  have h := ActionUntil.go_spec f (limit - 1) 1 (f 0) (Nat.le_refl 1) rfl
    (by intro j hj; omega)
  refine ⟨h.1, h.2.1, fun h0 h1 => ⟨fun v hv => ?_, ?_⟩⟩
  · simp [ActionUntil.execute, ActionUntil.go, h0, h1, hv]
  · simp [ActionUntil.execute, ActionUntil.go, h0, h1]

/-- A concrete fallible child stream for the claim C2 witness: fails on the
first two executions and succeeds with 42 on the third. -/
def untilStream : Nat → Except String Nat :=
  fun n => if n < 2 then Except.error "fail" else Except.ok 42

/-- Witness for claim C2 at the concrete child stream: limit 3 returns the
third-attempt success after 3 attempts, limit 2 returns the second-attempt
failure after 2 attempts. -/
theorem claim_C2_witness :
    ActionUntil.execute untilStream 3 = (Except.ok 42, 3)
    ∧ ActionUntil.execute untilStream 2 = (untilStream 1, 2) := by
  have h := (claim_C2 String Nat untilStream 0).2.2 rfl rfl
  exact ⟨h.1 42 rfl, h.2⟩

/-- Claim C3 (amended): ActionUntil execute always terminates and invokes
the child at most max 1 limit times: at most limit times when limit is
positive, but exactly once when limit is 0, because the first execution
happens before the loop bound is consulted. -/
theorem claim_C3 (E U : Type) (f : Nat → Except E U) (limit : Nat) :
    (ActionUntil.execute f limit).2 ≤ max 1 limit := by
  have h := ActionUntil.go_spec f (limit - 1) 1 (f 0) (Nat.le_refl 1) rfl
    (by intro j hj; omega)
  have hb := h.2.2.2
  simp only [ActionUntil.execute]
  omega

/-- A child stream that always fails, for the claim C3 counterexample. -/
def untilFailStream : Nat → Except Unit Unit :=
  fun _ => Except.error ()

/-- Counterexample to claim C3 as stated: with limit 0 the child is executed
once, not zero times, so the number of invocations is not bounded by the
limit. -/
theorem claim_C3_counterexample :
    (ActionUntil.execute untilFailStream 0).2 = 1
    ∧ ¬ (ActionUntil.execute untilFailStream 0).2 ≤ 0 := by
  constructor
  · rfl
  · intro h
    simp [ActionUntil.execute, ActionUntil.go] at h

/-- When the next child execution fails, the ActionWhile loop returns its
running result unchanged, for any fuel. -/
theorem ActionWhile.go_at_err {E U : Type} (f : Nat → Except E U) (N : Nat)
    (hN : (f N).isErr = true) :
    ∀ (fuel : Nat) (r : U), ActionWhile.go f fuel N r = r := by
  intro fuel r
  cases fuel with
  | zero => rfl
  | succ k =>
    cases hfn : f N with
    | ok v => rw [hfn] at hN; simp [Except.isErr] at hN
    | error e => simp [ActionWhile.go, hfn]

/-- If every execution before index N succeeds and execution N fails, the
ActionWhile loop started inside the successful prefix returns the value of
the last successful execution, given enough fuel to reach the failure. -/
theorem ActionWhile.go_last {E U : Type} (f : Nat → Except E U) (N : Nat)
    (hN : (f N).isErr = true) (hok : ∀ j, j < N → (f j).isErr = false) :
    ∀ (fuel i : Nat) (r v : U), i < N → N < i + fuel →
      f (N - 1) = Except.ok v → ActionWhile.go f fuel i r = v := by
  intro fuel
  induction fuel with
  | zero =>
    intro i r v hi hfuel
    omega
  | succ k ih =>
    intro i r v hi hfuel hlast
    cases hfi : f i with
    | error e =>
      have := hok i hi
      rw [hfi] at this
      simp [Except.isErr] at this
    | ok w =>
      have hstep : ActionWhile.go f (k + 1) i r = ActionWhile.go f k (i + 1) w := by
        simp [ActionWhile.go, hfi]
      rw [hstep]
      rcases Nat.lt_or_ge (i + 1) N with hlt | hge
      · exact ih (i + 1) w v hlt (by omega) hlast
      · have hiN : i + 1 = N := by omega
        have hwv : w = v := by
          have hi1 : i = N - 1 := by omega
          rw [hi1, hlast] at hfi
          exact ((Except.ok.injEq v w).mp hfi).symm
        rw [← hiN] at hN
        rw [ActionWhile.go_at_err f (i + 1) hN k w]
        exact hwv

/-- Claim C4: for a child whose attempt stream eventually fails, with fuel
covering the successful prefix, ActionWhile execute returns the value of
the last successful execution before the first failure, or the default
value of the output type if the very first execution fails. -/
theorem claim_C4 (E U : Type) [Inhabited U] (f : Nat → Except E U)
    (N fuel : Nat) (hN : (f N).isErr = true)
    (hok : ∀ j, j < N → (f j).isErr = false) (hfuel : N < fuel) :
    (N = 0 → ActionWhile.execute f fuel = (default : U))
    ∧ (∀ n v, N = n + 1 → f n = Except.ok v →
        ActionWhile.execute f fuel = v) := by
  constructor
  · intro h0
    rw [h0] at hN
    exact ActionWhile.go_at_err f 0 hN fuel default
  · intro n v hn hv
    have hlast : f (N - 1) = Except.ok v := by
      rw [hn]
      simpa using hv
    exact ActionWhile.go_last f N hN hok fuel 0 default v (by omega)
      (by omega) hlast

/-- A concrete fallible child stream for the claim C4 witness: succeeds
with 1, 2, 3 on its first three executions and then fails. -/
def whileStream : Nat → Except Unit Nat :=
  fun n => if n < 3 then Except.ok (n + 1) else Except.error ()

/-- Witness for claim C4 at the concrete child stream yielding 1, 2, 3 then
failing: ActionWhile returns 3, the last successful value, not the default. -/
theorem claim_C4_witness : ActionWhile.execute whileStream 10 = 3 := by
  have h := (claim_C4 Unit Nat whileStream 3 10 rfl
    (by intro j hj; interval_cases j <;> rfl) (by omega)).2 2 3 rfl rfl
  exact h

/-- The execute implementations of RaceAction and ActionSelect are the same
function: both poll the two children cooperatively and return the first
ready value. -/
theorem race_select_execute_eq {σV σW X : Type} (first : Coro σV X)
    (second : Coro σW X) :
    ∀ (fuel : Nat) (sV : σV) (sW : σW),
      RaceAction.execute first second fuel sV sW =
        ActionSelect.execute first second fuel sV sW := by
  intro fuel
  induction fuel with
  | zero => intro sV sW; rfl
  | succ k ih =>
    intro sV sW
    cases hf : first.poll sV with
    | ready v => simp [RaceAction.execute, ActionSelect.execute, hf]
    | pending sV1 =>
      cases hs : second.poll sW with
      | ready v => simp [RaceAction.execute, ActionSelect.execute, hf, hs]
      | pending sW1 =>
        simp [RaceAction.execute, ActionSelect.execute, hf, hs]
        exact ih sV1 sW1

/-- Over two timer children, the select loop returns the value of whichever
timer completes first (the first child winning ties, since each round polls
the first child first), given fuel past the earlier completion time. -/
theorem select_timer_first_wins {X : Type} (vA vB : X) :
    ∀ (fuel tA tB : Nat), min tA tB < fuel →
      ActionSelect.execute (timerCoro vA) (timerCoro vB) fuel tA tB =
        some (if tA ≤ tB then vA else vB) := by
  intro fuel
  induction fuel with
  | zero => intro tA tB h; omega
  | succ k ih =>
    intro tA tB h
    cases tA with
    | zero => simp [ActionSelect.execute, timerCoro]
    | succ a =>
      cases tB with
      | zero =>
        simp [ActionSelect.execute, timerCoro]
      | succ b =>
        have hrec := ih a b (by omega)
        have hpollA : (timerCoro vA).poll (a + 1) = Poll.pending a := rfl
        have hpollB : (timerCoro vB).poll (b + 1) = Poll.pending b := rfl
        simp [ActionSelect.execute, hpollA, hpollB, hrec]

/-- Claim C5 (amended): RaceAction and ActionSelect have identical execute
behavior: both run the two children concurrently and return the result of
whichever completes first, and both already require the children to share
one output type, returning the winning value with no wrapping (no tuple
bookkeeping in either); the actual difference is that ActionSelect also
provides modify, forwarding the input to both children. -/
theorem claim_C5 (σV σW X I : Type) (first : Coro σV X) (second : Coro σW X)
    (firstMod : ActionMod σV I) (secondMod : ActionMod σW I) (i : I)
    (s : σV × σW) (fuel : Nat) (sV : σV) (sW : σW) :
    RaceAction.execute first second fuel sV sW =
      ActionSelect.execute first second fuel sV sW
    ∧ ActionSelect.modify firstMod secondMod i s =
        (firstMod.modify i s.1, secondMod.modify i s.2)
    ∧ (∀ (tA tB : Nat) (vA vB : X) (fuel2 : Nat), min tA tB < fuel2 →
        RaceAction.execute (timerCoro vA) (timerCoro vB) fuel2 tA tB =
          some (if tA ≤ tB then vA else vB)) := by
  refine ⟨race_select_execute_eq first second fuel sV sW, rfl,
    fun tA tB vA vB fuel2 h => ?_⟩
  rw [race_select_execute_eq]
  exact select_timer_first_wins vA vB fuel2 tA tB h

/-- Counterexample to claim C5 as stated: RaceAction already returns the
winning value of the shared output type with no tuple wrapping, exactly as
ActionSelect does; at a concrete pair of timers the two executes agree and
the result is the plain value 9, not a tuple. -/
theorem claim_C5_counterexample :
    RaceAction.execute (timerCoro (7 : Nat)) (timerCoro 9) 5 1 0 =
      ActionSelect.execute (timerCoro (7 : Nat)) (timerCoro 9) 5 1 0
    ∧ RaceAction.execute (timerCoro (7 : Nat)) (timerCoro 9) 5 1 0 =
        some 9 :=
  ⟨rfl, rfl⟩

/-- Witness for claim C5 at concrete timers: the first child completes at
poll 3 and the second at poll 6, so the race returns the first value. -/
theorem claim_C5_witness :
    RaceAction.execute (timerCoro (3 : Nat)) (timerCoro 4) 6 2 5 =
      some 3 := by
  have h := (claim_C5 Nat Nat Nat Nat (timerCoro 3) (timerCoro 4)
    ⟨fun _ s => s⟩ ⟨fun _ s => s⟩ 0 (0, 0) 1 0 0).2.2 2 5 3 4 6 (by omega)
  simpa using h
